import Mathlib

/-!
Shallow embedding of the logchecker watch/aggregation engine
(package `logchecker`, final revision: `File.Check`, `File.Validate`,
`File.Duration`, `File.Watch`, `IsMoved`, `LogChecker.Start`,
`LogChecker.Stop`).

Go `uint64` arithmetic is modelled as `Nat` with an explicit `% 2^64`
(`u64`) at every operation that can overflow.  Time is modelled by an
explicit `elapsedSec` parameter (the source computes
`uint64(time.Since(f.LogStart).Seconds())`).  File contents are passed
as the full list of lines of the file (the source re-reads the whole
file on every check and skips the first `Pos` lines inside the loop).
-/

namespace Logchecker

/-- The modulus of Go `uint64` arithmetic. -/
def U64 : Nat := 2 ^ 64

/-- Wrap a natural number into Go `uint64` range. -/
def u64 (n : Nat) : Nat := n % U64

/-- Source constant `maxMsgLines uint64 = 10`. -/
def maxMsgLines : Nat := 10

/-- Source constant `MoveWait = 2 * time.Second` (in seconds):
the grace wait used by `IsMoved` before re-checking a moved file. -/
def MoveWait : Nat := 2

/-- inotify mask bit `IN_MODIFY` (0x2). -/
def IN_MODIFY : Nat := 2

/-- inotify mask bit `IN_ATTRIB` (0x4). -/
def IN_ATTRIB : Nat := 4

/-- Source constant `watcherMask = inotify.IN_MODIFY | inotify.IN_ATTRIB`. -/
def watcherMask : Nat := IN_MODIFY ||| IN_ATTRIB

/-- The `File` struct of the source: static configuration fields
(`Log`, `Pattern`, `Boundary`, `Increase`, `Emails`, `Limit`, `Period`)
together with the mutable per-file state (`Pos`, `Granularity`, `Found`,
`Counter`, `ExtBoundary`).  The compiled regular expression `RgPattern`
is modelled as a boolean predicate on lines. -/
structure File where
  log : String
  pattern : String
  boundary : Nat
  increase : Bool
  emails : List String
  limit : Nat
  period : Nat
  rgPattern : String → Bool
  pos : Nat
  granularity : Nat
  found : Nat
  counter : Nat
  extBoundary : Nat

/-- The local state of the scan loop inside `File.Check`:
`clines` (total lines seen), `counter` (matches found past `Pos`) and
`msgLines` (the sampled message lines). -/
structure ScanState where
  clines : Nat
  counter : Nat
  msgLines : List String

/-- One iteration of the scanner loop of `File.Check`:

    clines++
    if f.Pos < clines {
      if line := scanner.Text(); len(line) > 0 {
        if f.RgPattern.MatchString(line) {
          switch {
            case counter < (maxMsgLines + 1): msgLines = append(msgLines, fmt.Sprintf("%v: %v", clines, line))
            case counter == (maxMsgLines + 1): msgLines = append(msgLines, "...")
          }
          counter++
        }
      }
    }
-/
def scanLine (pos : Nat) (pat : String → Bool) (s : ScanState) (line : String) : ScanState :=
  let clines := u64 (s.clines + 1)
  if pos < clines then
    if 0 < line.length then
      if pat line then
        let msgLines :=
          if s.counter < maxMsgLines + 1 then
            s.msgLines ++ [toString clines ++ ": " ++ line]
          else if s.counter = maxMsgLines + 1 then
            s.msgLines ++ ["..."]
          else s.msgLines
        { clines := clines, counter := u64 (s.counter + 1), msgLines := msgLines }
      else { s with clines := clines }
    else { s with clines := clines }
  else { s with clines := clines }

/-- The whole scanner loop of `File.Check` over the lines of the file,
started from `counter = 0`, `clines = 0`, empty `msgLines`. -/
def scan (pos : Nat) (pat : String → Bool) (lines : List String) : ScanState :=
  lines.foldl (scanLine pos pat) { clines := 0, counter := 0, msgLines := [] }

/-- `File.Duration`: `uint64(time.Since(f.LogStart).Seconds()) / f.Period`.
Go integer division of `uint64` is floor division; for `period = 0` the
Go program panics at run time while `Nat` division returns 0. -/
def File.duration (f : File) (elapsedSec : Nat) : Nat :=
  elapsedSec / f.period

/-- `File.Check` after the scanner loop: period bookkeeping, cursor and
counter updates, and the notification decision.  Returns the updated
`File` and the `sent` flag.  The composed message body joins
`(scan f.pos f.rgPattern lines).msgLines`; delivery is fire-and-forget
and not modelled. -/
def File.check (f : File) (lines : List String) (elapsedSec : Nat) : File × Bool :=
  let s := scan f.pos f.rgPattern lines
  let curPeriod := f.duration elapsedSec
  let granularity1 := if curPeriod ≠ f.granularity then curPeriod else f.granularity
  let found1 := if curPeriod ≠ f.granularity then 0 else f.found
  let counter1 := if curPeriod ≠ f.granularity then 0 else f.counter
  let pos2 := s.clines
  let found2 := u64 (found1 + s.counter)
  if f.extBoundary ≤ found2 ∧ counter1 ≤ f.limit then
    ({ f with granularity := granularity1, pos := pos2, found := found2,
              counter := u64 (counter1 + 1),
              extBoundary := if f.increase then u64 (f.extBoundary * 2) else f.extBoundary },
     true)
  else
    ({ f with granularity := granularity1, pos := pos2, found := found2,
              counter := counter1, extBoundary := f.boundary },
     false)

/-- A sequence of checks on one file: each feed is the full contents of
the file at that moment plus the elapsed seconds; returns the list of
`sent` flags in order. -/
def checkSeq (f : File) : List (List String × Nat) → List Bool
  | [] => []
  | (lines, e) :: rest =>
      let r := f.check lines e
      r.2 :: checkSeq r.1 rest

/-- Modelled from the spec (refinement reference): the ordered list of
matched lines formatted as the source formats them
(`fmt.Sprintf("%v: %v", clines, line)`), over 1-based line numbers
starting after offset `n`, keeping exactly the lines that are beyond
`pos`, non-empty and matched by the pattern.  Its length is the spec
notion of "the match count counts every matching line". -/
def matchedFmt (pos : Nat) (pat : String → Bool) : List String → Nat → List String
  | [], _ => []
  | line :: rest, n =>
      if pos < n + 1 ∧ 0 < line.length ∧ pat line = true then
        (toString (n + 1) ++ ": " ++ line) :: matchedFmt pos pat rest (n + 1)
      else
        matchedFmt pos pat rest (n + 1)

/-- Oracles for the operating-system calls made by `File.Validate`:
whether `os.Stat` succeeds on a path and whether `regexp.Compile`
succeeds on a pattern text. -/
structure OsEnv where
  statOk : String → Bool
  regexpOk : String → Bool

/-- `filepath.IsAbs` on Linux (`strings.HasPrefix(path, "/")`): the
path is non-empty and its first character is `/`. -/
def isAbs (path : String) : Bool :=
  match path.data with
  | [] => false
  | c :: _ => c == '/'

/-- `File.Validate`: absolute path, `os.Stat` success, non-empty pattern,
`regexp.Compile` success — in that order.  `none` means no error.
The `os.Stat` and `regexp.Compile` error values are operating-system and
library messages; they are modelled by fixed representative strings.
Note that the source performs no check at all on `Period`. -/
def File.validate (f : File) (env : OsEnv) : Option String :=
  if ¬ isAbs f.log then some "path should be absolute"
  else if ¬ env.statOk f.log then some "stat error"
  else if f.pattern.length = 0 then some "pattern should not be empty"
  else if ¬ env.regexpOk f.pattern then some "regexp compile error"
  else none

/-- The `Service` struct: a named group of watched files. -/
structure Service where
  name : String
  files : List File

/-- The supervisor state of `LogChecker` that `Start`/`Stop` touch:
the configured services and the running flag (`Running != initTime`). -/
structure LogChecker where
  observed : List Service
  running : Bool

/-- `LogChecker.IsWorking`: `logger.Running != initTime`. -/
def LogChecker.isWorking (lc : LogChecker) : Bool := lc.running

/-- The number of files that pass `File.Validate` across all services:
the `watched` counter of `LogChecker.Start`, which spawns one
`File.Watch` goroutine per such file. -/
def countValid (env : OsEnv) (services : List Service) : Nat :=
  (services.map (fun serv => (serv.files.filter (fun f => (f.validate env).isNone)).length)).sum

/-- `LogChecker.Start`: returns the updated supervisor state, the number
of watcher goroutines spawned, and the error (`none` on success).  The
source sets `logger.Running = time.Now()` before the validation loop
and does not clear it when it fails with "empty task queue". -/
def LogChecker.start (lc : LogChecker) (env : OsEnv) : LogChecker × Nat × Option String :=
  if lc.isWorking then (lc, 0, some "process is already running")
  else
    let started : LogChecker := { lc with running := true }
    let watched := countValid env lc.observed
    if watched = 0 then (started, watched, some "empty task queue")
    else (started, watched, none)

/-- `LogChecker.Stop`: error when not working; otherwise closes the
finish channel, waits for the task group, and resets `Running` to
`initTime` (modelled as clearing the running flag). -/
def LogChecker.stop (lc : LogChecker) : LogChecker × Option String :=
  if ¬ lc.isWorking then (lc, some "process is already stopped")
  else ({ lc with running := false }, none)

/-- `IsMoved`: after sleeping `MoveWait`, `os.Stat` the file again;
failure returns the error (no new watcher), success re-subscribes a
fresh inotify watcher.  `existsAfterWait` is the `os.Stat` outcome. -/
def IsMoved (existsAfterWait : Bool) : Option Unit :=
  if existsAfterWait then some () else none

/-- The events one iteration of the `File.Watch` select loop can see:
the finish (shutdown) channel, an inotify event with a mask, or an
inotify error. -/
inductive WatchEvent
  | finish
  | inotifyEvent (mask : Nat)
  | watcherError

/-- One iteration of the `File.Watch` loop.  `none` means the watch
task returns (terminates); `some (f, sent)` is the file state and sent
flag after the `File.Check` call of this iteration.  On an event whose
mask contains `IN_ATTRIB` the task runs `IsMoved` (which sleeps
`MoveWait` and re-checks existence): on failure the task terminates; on
success it resets `f.Pos = 0` and proceeds to `File.Check`.  The state
is owned by this single task; terminating affects no other task. -/
def watchStep (f : File) (ev : WatchEvent) (existsAfterWait : Bool)
    (lines : List String) (elapsedSec : Nat) : Option (File × Bool) :=
  match ev with
  | WatchEvent.finish => none
  | WatchEvent.watcherError => none
  | WatchEvent.inotifyEvent mask =>
      if mask &&& IN_ATTRIB ≠ 0 then
        match IsMoved existsAfterWait with
        | none => none
        | some _ => some (File.check { f with pos := 0 } lines elapsedSec)
      else
        some (File.check f lines elapsedSec)

/-- A target with `boundary = 1`, `limit = 0`, `increase = false`,
`period = 60`, in the freshly started state (`ExtBoundary = Boundary`),
whose pattern matches exactly the line "e". -/
def cfgA : File :=
  { log := "/var/log/app.log", pattern := "e", boundary := 1, increase := false,
    emails := ["admin@host.com"], limit := 0, period := 60,
    rgPattern := fun line => line == "e",
    pos := 0, granularity := 0, found := 0, counter := 0, extBoundary := 1 }

/-- A target with `boundary = 1`, `limit = 3`, `increase = false`,
`period = 60`, freshly started. -/
def cfgB : File :=
  { log := "/var/log/app.log", pattern := "e", boundary := 1, increase := false,
    emails := ["admin@host.com"], limit := 3, period := 60,
    rgPattern := fun line => line == "e",
    pos := 0, granularity := 0, found := 0, counter := 0, extBoundary := 1 }

/-- A target with `boundary = 1`, `limit = 100`, `increase = true`,
`period = 60`, freshly started. -/
def cfgC : File :=
  { log := "/var/log/app.log", pattern := "e", boundary := 1, increase := true,
    emails := ["admin@host.com"], limit := 100, period := 60,
    rgPattern := fun line => line == "e",
    pos := 0, granularity := 0, found := 0, counter := 0, extBoundary := 1 }

/-- An escalated in-flight state: `increase = true`, `boundary = 1`,
`ExtBoundary` already escalated to 2, one match and one notification
recorded in the current period, cursor past the only line. -/
def cfgD : File :=
  { log := "/var/log/app.log", pattern := "e", boundary := 1, increase := true,
    emails := ["admin@host.com"], limit := 10, period := 60,
    rgPattern := fun line => line == "e",
    pos := 1, granularity := 0, found := 1, counter := 1, extBoundary := 2 }

/-- An in-flight state whose stored `Granularity` (5) differs from the
period index of the next check at elapsed time 0. -/
def cfgE : File :=
  { log := "/var/log/app.log", pattern := "e", boundary := 2, increase := false,
    emails := ["admin@host.com"], limit := 4, period := 60,
    rgPattern := fun line => line == "e",
    pos := 0, granularity := 5, found := 7, counter := 3, extBoundary := 2 }

/-- A target whose `Period` is zero but which is otherwise valid. -/
def zeroPeriodFile : File :=
  { log := "/var/log/app.log", pattern := "error", boundary := 1, increase := false,
    emails := ["admin@host.com"], limit := 1, period := 0,
    rgPattern := fun line => line == "error",
    pos := 0, granularity := 0, found := 0, counter := 0, extBoundary := 1 }

/-- An environment in which every path exists and every pattern compiles. -/
def envAll : OsEnv := { statOk := fun _ => true, regexpOk := fun _ => true }

/-- A supervisor with no observed services, stopped. -/
def lcEmptyObserved : LogChecker := { observed := [], running := false }

/-- A supervisor already running. -/
def lcRun : LogChecker := { observed := [], running := true }

/-- A supervisor with one service holding one valid file, stopped. -/
def lcOne : LogChecker :=
  { observed := [ { name := "Nginx", files := [cfgA] } ], running := false }

end Logchecker

namespace Logchecker

theorem u64_small {n : Nat} (h : n < U64) : u64 n = n :=
  Nat.mod_eq_of_lt h

theorem scan_foldl (pos : Nat) (pat : String → Bool) (lines : List String) (s : ScanState)
    (h1 : s.clines + lines.length < U64) (h2 : s.counter + lines.length < U64) :
    lines.foldl (scanLine pos pat) s =
      { clines := s.clines + lines.length,
        counter := s.counter + (matchedFmt pos pat lines s.clines).length,
        msgLines := s.msgLines
          ++ (matchedFmt pos pat lines s.clines).take (maxMsgLines + 1 - s.counter)
          ++ (if s.counter ≤ maxMsgLines + 1 ∧
                maxMsgLines + 1 < s.counter + (matchedFmt pos pat lines s.clines).length
              then ["..."] else []) } := by
  induction lines generalizing s with
  | nil =>
      simp only [List.foldl_nil, List.length_nil, Nat.add_zero, matchedFmt,
        List.take_nil, List.append_nil]
      rw [if_neg (by omega)]
      simp
  | cons line rest ih =>
      simp only [List.length_cons] at h1 h2
      have hcl : u64 (s.clines + 1) = s.clines + 1 := u64_small (by omega)
      have hA : s.clines + 1 + rest.length < U64 := by omega
      simp only [List.foldl_cons]
      by_cases hnew : pos < s.clines + 1
      · by_cases hlen : 0 < line.length
        · by_cases hpat : pat line = true
          · -- the line is counted as a match
            have hco : u64 (s.counter + 1) = s.counter + 1 := u64_small (by omega)
            have hB : s.counter + 1 + rest.length < U64 := by omega
            have hM : matchedFmt pos pat (line :: rest) s.clines =
                (toString (s.clines + 1) ++ ": " ++ line) :: matchedFmt pos pat rest (s.clines + 1) := by
              rw [matchedFmt, if_pos ⟨hnew, hlen, hpat⟩]
            by_cases hc : s.counter < maxMsgLines + 1
            · have hstep : scanLine pos pat s line =
                  { clines := s.clines + 1, counter := s.counter + 1,
                    msgLines := s.msgLines ++ [toString (s.clines + 1) ++ ": " ++ line] } := by
                simp only [scanLine, hcl, hco]
                rw [if_pos hnew, if_pos hlen, if_pos hpat, if_pos hc]
              have ih2 : List.foldl (scanLine pos pat)
                  { clines := s.clines + 1, counter := s.counter + 1,
                    msgLines := s.msgLines ++ [toString (s.clines + 1) ++ ": " ++ line] } rest =
                  { clines := s.clines + 1 + rest.length,
                    counter := s.counter + 1 + (matchedFmt pos pat rest (s.clines + 1)).length,
                    msgLines := (s.msgLines ++ [toString (s.clines + 1) ++ ": " ++ line])
                      ++ (matchedFmt pos pat rest (s.clines + 1)).take (maxMsgLines + 1 - (s.counter + 1))
                      ++ (if s.counter + 1 ≤ maxMsgLines + 1 ∧
                            maxMsgLines + 1 < s.counter + 1 + (matchedFmt pos pat rest (s.clines + 1)).length
                          then ["..."] else []) } := ih _ hA hB
              rw [hstep, ih2, hM, ScanState.mk.injEq]
              simp only [List.length_cons]
              refine ⟨by omega, by omega, ?_⟩
              have htake : (maxMsgLines + 1 - s.counter) =
                  (maxMsgLines + 1 - (s.counter + 1)) + 1 := by omega
              rw [htake, List.take_succ_cons]
              by_cases he : maxMsgLines + 1 <
                  s.counter + 1 + (matchedFmt pos pat rest (s.clines + 1)).length
              · rw [if_pos ⟨by omega, he⟩, if_pos ⟨by omega, by omega⟩]
                simp
              · rw [if_neg (by omega), if_neg (by omega)]
                simp
            · by_cases hc2 : s.counter = maxMsgLines + 1
              · have hstep : scanLine pos pat s line =
                    { clines := s.clines + 1, counter := s.counter + 1,
                      msgLines := s.msgLines ++ ["..."] } := by
                  simp only [scanLine, hcl, hco]
                  rw [if_pos hnew, if_pos hlen, if_pos hpat, if_neg hc, if_pos hc2]
                have ih2 : List.foldl (scanLine pos pat)
                    { clines := s.clines + 1, counter := s.counter + 1,
                      msgLines := s.msgLines ++ ["..."] } rest =
                    { clines := s.clines + 1 + rest.length,
                      counter := s.counter + 1 + (matchedFmt pos pat rest (s.clines + 1)).length,
                      msgLines := (s.msgLines ++ ["..."])
                        ++ (matchedFmt pos pat rest (s.clines + 1)).take (maxMsgLines + 1 - (s.counter + 1))
                        ++ (if s.counter + 1 ≤ maxMsgLines + 1 ∧
                              maxMsgLines + 1 < s.counter + 1 + (matchedFmt pos pat rest (s.clines + 1)).length
                            then ["..."] else []) } := ih _ hA hB
                rw [hstep, ih2, hM, ScanState.mk.injEq]
                simp only [List.length_cons]
                refine ⟨by omega, by omega, ?_⟩
                rw [show maxMsgLines + 1 - (s.counter + 1) = 0 from by omega,
                    show maxMsgLines + 1 - s.counter = 0 from by omega,
                    List.take_zero, List.take_zero]
                rw [if_neg (by omega), if_pos ⟨by omega, by omega⟩]
                simp
              · have hstep : scanLine pos pat s line =
                    { clines := s.clines + 1, counter := s.counter + 1,
                      msgLines := s.msgLines } := by
                  simp only [scanLine, hcl, hco]
                  rw [if_pos hnew, if_pos hlen, if_pos hpat, if_neg hc, if_neg hc2]
                have ih2 : List.foldl (scanLine pos pat)
                    { clines := s.clines + 1, counter := s.counter + 1,
                      msgLines := s.msgLines } rest =
                    { clines := s.clines + 1 + rest.length,
                      counter := s.counter + 1 + (matchedFmt pos pat rest (s.clines + 1)).length,
                      msgLines := s.msgLines
                        ++ (matchedFmt pos pat rest (s.clines + 1)).take (maxMsgLines + 1 - (s.counter + 1))
                        ++ (if s.counter + 1 ≤ maxMsgLines + 1 ∧
                              maxMsgLines + 1 < s.counter + 1 + (matchedFmt pos pat rest (s.clines + 1)).length
                            then ["..."] else []) } := ih _ hA hB
                rw [hstep, ih2, hM, ScanState.mk.injEq]
                simp only [List.length_cons]
                refine ⟨by omega, by omega, ?_⟩
                rw [show maxMsgLines + 1 - (s.counter + 1) = 0 from by omega,
                    show maxMsgLines + 1 - s.counter = 0 from by omega,
                    List.take_zero, List.take_zero]
                rw [if_neg (by omega), if_neg (by omega)]
          · -- pattern does not match: the line is skipped
            have hB : s.counter + rest.length < U64 := by omega
            have hstep : scanLine pos pat s line = { s with clines := s.clines + 1 } := by
              simp only [scanLine, hcl]
              rw [if_pos hnew, if_pos hlen, if_neg hpat]
            have hM : matchedFmt pos pat (line :: rest) s.clines =
                matchedFmt pos pat rest (s.clines + 1) := by
              rw [matchedFmt, if_neg (fun h => hpat h.2.2)]
            have ih2 : List.foldl (scanLine pos pat) { s with clines := s.clines + 1 } rest =
                { clines := s.clines + 1 + rest.length,
                  counter := s.counter + (matchedFmt pos pat rest (s.clines + 1)).length,
                  msgLines := s.msgLines
                    ++ (matchedFmt pos pat rest (s.clines + 1)).take (maxMsgLines + 1 - s.counter)
                    ++ (if s.counter ≤ maxMsgLines + 1 ∧
                          maxMsgLines + 1 < s.counter + (matchedFmt pos pat rest (s.clines + 1)).length
                        then ["..."] else []) } := ih _ hA hB
            rw [hstep, ih2, hM, ScanState.mk.injEq]
            simp only [List.length_cons]
            exact ⟨by omega, trivial, trivial⟩
        · -- empty line: skipped
          have hB : s.counter + rest.length < U64 := by omega
          have hstep : scanLine pos pat s line = { s with clines := s.clines + 1 } := by
            simp only [scanLine, hcl]
            rw [if_pos hnew, if_neg hlen]
          have hM : matchedFmt pos pat (line :: rest) s.clines =
              matchedFmt pos pat rest (s.clines + 1) := by
            rw [matchedFmt, if_neg (fun h => hlen h.2.1)]
          have ih2 : List.foldl (scanLine pos pat) { s with clines := s.clines + 1 } rest =
              { clines := s.clines + 1 + rest.length,
                counter := s.counter + (matchedFmt pos pat rest (s.clines + 1)).length,
                msgLines := s.msgLines
                  ++ (matchedFmt pos pat rest (s.clines + 1)).take (maxMsgLines + 1 - s.counter)
                  ++ (if s.counter ≤ maxMsgLines + 1 ∧
                        maxMsgLines + 1 < s.counter + (matchedFmt pos pat rest (s.clines + 1)).length
                      then ["..."] else []) } := ih _ hA hB
          rw [hstep, ih2, hM, ScanState.mk.injEq]
          simp only [List.length_cons]
          exact ⟨by omega, trivial, trivial⟩
      · -- line not beyond the stored position: skipped
        have hB : s.counter + rest.length < U64 := by omega
        have hstep : scanLine pos pat s line = { s with clines := s.clines + 1 } := by
          simp only [scanLine, hcl]
          rw [if_neg hnew]
        have hM : matchedFmt pos pat (line :: rest) s.clines =
            matchedFmt pos pat rest (s.clines + 1) := by
          rw [matchedFmt, if_neg (fun h => hnew h.1)]
        have ih2 : List.foldl (scanLine pos pat) { s with clines := s.clines + 1 } rest =
            { clines := s.clines + 1 + rest.length,
              counter := s.counter + (matchedFmt pos pat rest (s.clines + 1)).length,
              msgLines := s.msgLines
                ++ (matchedFmt pos pat rest (s.clines + 1)).take (maxMsgLines + 1 - s.counter)
                ++ (if s.counter ≤ maxMsgLines + 1 ∧
                      maxMsgLines + 1 < s.counter + (matchedFmt pos pat rest (s.clines + 1)).length
                    then ["..."] else []) } := ih _ hA hB
        rw [hstep, ih2, hM, ScanState.mk.injEq]
        simp only [List.length_cons]
        exact ⟨by omega, trivial, trivial⟩

theorem scan_eq (pos : Nat) (pat : String → Bool) (lines : List String)
    (h : lines.length < U64) :
    scan pos pat lines =
      { clines := lines.length,
        counter := (matchedFmt pos pat lines 0).length,
        msgLines := (matchedFmt pos pat lines 0).take (maxMsgLines + 1)
          ++ (if maxMsgLines + 1 < (matchedFmt pos pat lines 0).length
              then ["..."] else []) } := by
  have h0 : scan pos pat lines =
      { clines := 0 + lines.length,
        counter := 0 + (matchedFmt pos pat lines 0).length,
        msgLines := ([] : List String)
          ++ (matchedFmt pos pat lines 0).take (maxMsgLines + 1 - 0)
          ++ (if 0 ≤ maxMsgLines + 1 ∧
                maxMsgLines + 1 < 0 + (matchedFmt pos pat lines 0).length
              then ["..."] else []) } :=
    scan_foldl pos pat lines { clines := 0, counter := 0, msgLines := [] }
      (by show 0 + lines.length < U64; omega) (by show 0 + lines.length < U64; omega)
  rw [h0, ScanState.mk.injEq]
  refine ⟨Nat.zero_add _, Nat.zero_add _, ?_⟩
  simp only [List.nil_append, Nat.zero_add, Nat.sub_zero]
  by_cases he : maxMsgLines + 1 < (matchedFmt pos pat lines 0).length
  · rw [if_pos ⟨Nat.zero_le _, he⟩, if_pos he]
  · rw [if_neg (fun hand => he hand.2), if_neg he]

theorem matchedFmt_nil_of_le (pos : Nat) (pat : String → Bool) (lines : List String) :
    ∀ n, n + lines.length ≤ pos → matchedFmt pos pat lines n = [] := by
  induction lines with
  | nil => intro n h; rfl
  | cons line rest ih =>
      intro n h
      simp only [List.length_cons] at h
      rw [matchedFmt, if_neg (by omega), ih (n + 1) (by omega)]

theorem matchedFmt_length_le (pos : Nat) (pat : String → Bool) (lines : List String) :
    ∀ n, (matchedFmt pos pat lines n).length ≤ lines.length := by
  induction lines with
  | nil => intro n; simp [matchedFmt]
  | cons line rest ih =>
      intro n
      rw [matchedFmt]
      split
      · simpa using ih (n + 1)
      · simp only [List.length_cons]
        exact Nat.le_trans (ih (n + 1)) (Nat.le_succ _)

theorem check_pos_eq (f : File) (lines : List String) (e : Nat) :
    (f.check lines e).1.pos = (scan f.pos f.rgPattern lines).clines := by
  simp only [File.check]
  split <;> split <;> rfl

theorem check_rgPattern_eq (f : File) (lines : List String) (e : Nat) :
    (f.check lines e).1.rgPattern = f.rgPattern := by
  simp only [File.check]
  split <;> split <;> rfl

theorem check_boundary_eq (f : File) (lines : List String) (e : Nat) :
    (f.check lines e).1.boundary = f.boundary := by
  simp only [File.check]
  split <;> split <;> rfl

theorem check_granularity_eq (f : File) (lines : List String) (e : Nat) :
    (f.check lines e).1.granularity =
      (if f.duration e ≠ f.granularity then f.duration e else f.granularity) := by
  simp only [File.check]
  split <;> split <;> rfl

theorem check_found_eq (f : File) (lines : List String) (e : Nat) :
    (f.check lines e).1.found =
      u64 ((if f.duration e ≠ f.granularity then 0 else f.found)
            + (scan f.pos f.rgPattern lines).counter) := by
  simp only [File.check]
  split <;> split <;> rfl

theorem check_counter_eq (f : File) (lines : List String) (e : Nat) :
    (f.check lines e).1.counter =
      (if (f.check lines e).2 = true
       then u64 ((if f.duration e ≠ f.granularity then 0 else f.counter) + 1)
       else (if f.duration e ≠ f.granularity then 0 else f.counter)) := by
  simp only [File.check]
  split <;> split <;> rfl

theorem check_ext_eq (f : File) (lines : List String) (e : Nat) :
    (f.check lines e).1.extBoundary =
      (if (f.check lines e).2 = true
       then (if f.increase then u64 (f.extBoundary * 2) else f.extBoundary)
       else f.boundary) := by
  simp only [File.check]
  split <;> split <;> rfl

theorem matchedFmt_zero_len (pat : String → Bool) (lines : List String) :
    ∀ n m, (matchedFmt 0 pat lines n).length = (matchedFmt 0 pat lines m).length := by
  induction lines with
  | nil => intro n m; rfl
  | cons line rest ih =>
      intro n m
      rw [matchedFmt, matchedFmt]
      by_cases hl : 0 < line.length ∧ pat line = true
      · rw [if_pos ⟨Nat.succ_pos n, hl.1, hl.2⟩, if_pos ⟨Nat.succ_pos m, hl.1, hl.2⟩]
        simp only [List.length_cons]
        rw [ih (n + 1) (m + 1)]
      · have h1 : ¬(0 < n + 1 ∧ 0 < line.length ∧ pat line = true) :=
          fun hh => hl ⟨hh.2.1, hh.2.2⟩
        have h2 : ¬(0 < m + 1 ∧ 0 < line.length ∧ pat line = true) :=
          fun hh => hl ⟨hh.2.1, hh.2.2⟩
        rw [if_neg h1, if_neg h2]
        exact ih (n + 1) (m + 1)

theorem check_sent_iff (f : File) (lines : List String) (e : Nat) :
    (f.check lines e).2 = true ↔
      (f.extBoundary ≤
        u64 ((if f.duration e ≠ f.granularity then 0 else f.found)
              + (scan f.pos f.rgPattern lines).counter)
       ∧ (if f.duration e ≠ f.granularity then 0 else f.counter) ≤ f.limit) := by
  simp only [File.check]
  split <;> split
  all_goals first
    | exact iff_of_true rfl (by assumption)
    | exact iff_of_false (by simp) (by assumption)

end Logchecker

namespace Logchecker

/-- Claim C1 (code bug): evaluating `File.Check` at the failing inputs.
The source tests `f.Counter <= f.Limit`, so a target with `limit = 0`
still notifies once per period ([true, false] on two over-boundary
checks), and a target with `boundary = 1, limit = 3, increase = false`
fed one match per check in the same period notifies on four checks and
suppresses only the fifth — the claim (and the README, "maximum emails
during a time period") says three notifications with the fourth
suppressed. -/
theorem c1_limit_eval :
    (cfgA.check ["e"] 0).2 = true ∧
    checkSeq cfgA [(["e"], 0), (["e", "e"], 0)] = [true, false] ∧
    checkSeq cfgB
      [(["e"], 0), (["e", "e"], 0), (["e", "e", "e"], 0),
       (["e", "e", "e", "e"], 0), (["e", "e", "e", "e", "e"], 0)]
      = [true, true, true, true, false] := by decide

/-- Claim C2 counterexample: a check that does not notify because the
threshold was not reached does not leave `ExtBoundary` unchanged — the
else branch of `File.Check` resets it to `Boundary` (from 2 to 1 here). -/
theorem c2_counterexample :
    (cfgD.check ["e"] 0).1.found < cfgD.extBoundary ∧
    (cfgD.check ["e"] 0).2 = false ∧
    (cfgD.check ["e"] 0).1.extBoundary ≠ cfgD.extBoundary := by decide

/-- Claim C2 amended: every update that does not notify (in particular
one where the threshold was not reached) resets `ExtBoundary` to
`Boundary`; it is unchanged only when it already equals `Boundary`. -/
theorem c2_amended (f : File) (lines : List String) (e : Nat)
    (h : (f.check lines e).2 = false) :
    (f.check lines e).1.extBoundary = f.boundary := by
  have hext := check_ext_eq f lines e
  rw [h] at hext
  simpa using hext

/-- Witness for the amended C2 theorem at a concrete input. -/
theorem c2_amended_witness :
    (cfgD.check ["e"] 0).2 = false ∧
    (cfgD.check ["e"] 0).1.extBoundary = cfgD.boundary :=
  ⟨by decide, c2_amended cfgD ["e"] 0 (by decide)⟩

/-- Claim C3 counterexample: a scan over eleven matching lines collects
all eleven verbatim (none of the message lines is the ellipsis marker),
while the claim says exactly ten verbatim plus an ellipsis when more
than ten matched. -/
theorem c3_counterexample :
    (scan 0 (fun line => line == "e") (List.replicate 11 "e")).msgLines.length = 11 ∧
    (scan 0 (fun line => line == "e") (List.replicate 11 "e")).msgLines.contains "..."
      = false := by decide

/-- Claim C3 amended: the scan collects the first eleven
(`maxMsgLines + 1`) matched lines verbatim (each prefixed with its line
number), appends a single ellipsis marker exactly when more than eleven
lines matched, and the returned match count counts every matching line. -/
theorem c3_amended (pos : Nat) (pat : String → Bool) (lines : List String)
    (h : lines.length < U64) :
    (scan pos pat lines).counter = (matchedFmt pos pat lines 0).length ∧
    (scan pos pat lines).msgLines =
      (matchedFmt pos pat lines 0).take (maxMsgLines + 1)
        ++ (if maxMsgLines + 1 < (matchedFmt pos pat lines 0).length
            then ["..."] else []) := by
  rw [scan_eq pos pat lines h]
  exact ⟨rfl, rfl⟩

/-- Witness for the amended C3 theorem at twelve matching lines. -/
theorem c3_amended_witness :
    (List.replicate 12 "e").length < U64 ∧
    ((scan 0 (fun line => line == "e") (List.replicate 12 "e")).counter =
       (matchedFmt 0 (fun line => line == "e") (List.replicate 12 "e") 0).length ∧
     (scan 0 (fun line => line == "e") (List.replicate 12 "e")).msgLines =
       (matchedFmt 0 (fun line => line == "e") (List.replicate 12 "e") 0).take (maxMsgLines + 1)
         ++ (if maxMsgLines + 1 <
               (matchedFmt 0 (fun line => line == "e") (List.replicate 12 "e") 0).length
             then ["..."] else [])) :=
  ⟨by decide, c3_amended 0 (fun line => line == "e") (List.replicate 12 "e") (by decide)⟩

/-- Claim C4 (code bug): `File.Validate` accepts a target whose
`Period` is zero (it checks only path, `os.Stat`, non-empty pattern and
pattern compilation), although the spec requires zero period to be
rejected at validation time; `File.Duration` then divides by zero,
which panics in Go. -/
theorem c4_zero_period_validates :
    zeroPeriodFile.period = 0 ∧ zeroPeriodFile.validate envAll = none := by decide

/-- Claim C5: on every notifying check of an increasing target the
escalated boundary is doubled (modulo 2^64); a non-increasing target
keeps `ExtBoundary = Boundary` through any check; and on the concrete
scenario (`boundary = 1`, `increase = true`) the boundary is 2 after
the first notification, 4 after the second, and the third check
compares against the escalated 4 (found 3 matches, which exceed
`boundary = 1` but not 4) and does not notify. -/
theorem c5_escalation :
    (∀ (f : File) (lines : List String) (e : Nat),
        f.increase = true → (f.check lines e).2 = true →
        (f.check lines e).1.extBoundary = u64 (f.extBoundary * 2)) ∧
    (∀ (f : File) (lines : List String) (e : Nat),
        f.increase = false → f.extBoundary = f.boundary →
        (f.check lines e).1.extBoundary = f.boundary) ∧
    ((cfgC.check ["e"] 0).2 = true ∧ (cfgC.check ["e"] 0).1.extBoundary = 2) ∧
    (((cfgC.check ["e"] 0).1.check ["e", "e", "e"] 0).2 = true ∧
     ((cfgC.check ["e"] 0).1.check ["e", "e", "e"] 0).1.extBoundary = 4) ∧
    ((((cfgC.check ["e"] 0).1.check ["e", "e", "e"] 0).1.check ["e", "e", "e"] 0).2 = false ∧
     ((cfgC.check ["e"] 0).1.check ["e", "e", "e"] 0).1.found = 3 ∧
     cfgC.boundary = 1) := by
  refine ⟨?_, ?_, by decide, by decide, by decide⟩
  · intro f lines e hinc hsent
    rw [check_ext_eq, if_pos hsent, if_pos hinc]
  · intro f lines e hinc hext
    rw [check_ext_eq]
    split
    · rw [if_neg (by simp [hinc]), hext]
    · rfl

/-- Witness for the universally quantified parts of the C5 theorem. -/
theorem c5_escalation_witness :
    (cfgC.increase = true ∧ (cfgC.check ["e"] 0).2 = true ∧
     (cfgC.check ["e"] 0).1.extBoundary = u64 (cfgC.extBoundary * 2)) ∧
    (cfgB.increase = false ∧ cfgB.extBoundary = cfgB.boundary ∧
     (cfgB.check ["e"] 0).1.extBoundary = cfgB.boundary) :=
  ⟨⟨by decide, by decide, c5_escalation.1 cfgC ["e"] 0 (by decide) (by decide)⟩,
   ⟨by decide, by decide, c5_escalation.2.1 cfgB ["e"] 0 (by decide) (by decide)⟩⟩

end Logchecker

namespace Logchecker

/-- Claim C6: the period index of a check is `elapsedSec / period`
(floor division, characterized by the two bounds), and whenever it
differs from the stored `Granularity` the check stores the new index
and resets both `Found` and `Counter` to zero before adding the new
match count (`Found` becomes exactly the new scan counter; `Counter`
becomes 1 when the check notifies and 0 otherwise). -/
theorem c6_period_reset (f : File) (lines : List String) (e : Nat)
    (hp : f.period ≠ 0) (hg : f.duration e ≠ f.granularity) :
    f.duration e = e / f.period ∧
    f.duration e * f.period ≤ e ∧
    e < (f.duration e + 1) * f.period ∧
    (f.check lines e).1.granularity = f.duration e ∧
    (f.check lines e).1.found = u64 ((scan f.pos f.rgPattern lines).counter) ∧
    (f.check lines e).1.counter = (if (f.check lines e).2 = true then 1 else 0) := by
  refine ⟨rfl, Nat.div_mul_le_self e f.period, ?_, ?_, ?_, ?_⟩
  · have h1 := Nat.div_add_mod e f.period
    have h2 : e % f.period < f.period := Nat.mod_lt _ (Nat.pos_of_ne_zero hp)
    have h3 : (f.duration e + 1) * f.period = f.period * (e / f.period) + f.period := by
      rw [File.duration]; ring
    rw [h3]
    omega
  · rw [check_granularity_eq, if_pos hg]
  · rw [check_found_eq, if_pos hg, Nat.zero_add]
  · rw [check_counter_eq, if_pos hg]
    split
    · decide
    · rfl

/-- Witness for the C6 theorem at a concrete state whose stored
granularity differs from the period index. -/
theorem c6_period_reset_witness :
    (cfgE.period ≠ 0 ∧ cfgE.duration 0 ≠ cfgE.granularity) ∧
    (cfgE.duration 0 = 0 / cfgE.period ∧
     cfgE.duration 0 * cfgE.period ≤ 0 ∧
     0 < (cfgE.duration 0 + 1) * cfgE.period ∧
     (cfgE.check ["e"] 0).1.granularity = cfgE.duration 0 ∧
     (cfgE.check ["e"] 0).1.found = u64 ((scan cfgE.pos cfgE.rgPattern ["e"]).counter) ∧
     (cfgE.check ["e"] 0).1.counter = (if (cfgE.check ["e"] 0).2 = true then 1 else 0)) :=
  ⟨⟨by decide, by decide⟩, c6_period_reset cfgE ["e"] 0 (by decide) (by decide)⟩

/-- Claim C7: checking the same unchanged file twice is idempotent —
after a first check, a scan from the stored cursor finds zero new
matches, and a second check of the same contents leaves the stored
line offset unchanged. -/
theorem c7_idempotent (f : File) (lines : List String) (e1 e2 : Nat)
    (h : lines.length < U64) :
    (scan ((f.check lines e1).1.pos) ((f.check lines e1).1.rgPattern) lines).counter = 0 ∧
    ((f.check lines e1).1.check lines e2).1.pos = (f.check lines e1).1.pos := by
  have hclines : (scan f.pos f.rgPattern lines).clines = lines.length := by
    rw [scan_eq _ _ _ h]
  have hpos : (f.check lines e1).1.pos = lines.length := by
    rw [check_pos_eq, hclines]
  have hrg : (f.check lines e1).1.rgPattern = f.rgPattern := check_rgPattern_eq f lines e1
  have hcounter : (scan lines.length f.rgPattern lines).counter = 0 := by
    rw [scan_eq _ _ _ h, matchedFmt_nil_of_le lines.length f.rgPattern lines 0 (by omega)]
    rfl
  have hclines2 : (scan lines.length f.rgPattern lines).clines = lines.length := by
    rw [scan_eq _ _ _ h]
  refine ⟨?_, ?_⟩
  · rw [hpos, hrg]
    exact hcounter
  · rw [check_pos_eq, hrg, hpos, hclines2]

/-- Witness for the C7 theorem at a concrete file and contents. -/
theorem c7_idempotent_witness :
    (["e", "x"] : List String).length < U64 ∧
    ((scan ((cfgB.check ["e", "x"] 0).1.pos) ((cfgB.check ["e", "x"] 0).1.rgPattern)
        ["e", "x"]).counter = 0 ∧
     ((cfgB.check ["e", "x"] 0).1.check ["e", "x"] 7).1.pos =
       (cfgB.check ["e", "x"] 0).1.pos) :=
  ⟨by decide, c7_idempotent cfgB ["e", "x"] 0 7 (by decide)⟩

/-- Claim C8 counterexample: `Start` on a supervisor with zero valid
targets returns the empty-task-queue error, yet afterwards the
is-running state is set — `Running` is assigned before the validation
loop and is not cleared on this failure, so the is-running predicate is
not true exactly from a successful `Start`. -/
theorem c8_counterexample :
    (lcEmptyObserved.start envAll).2.2 ≠ none ∧
    (lcEmptyObserved.start envAll).1.running = true := by decide

/-- Claim C8 amended: `Start` fails when already running (state
unchanged); `Start` on a stopped checker with zero valid targets fails
with the empty-task-queue error but still sets the running flag;
otherwise it spawns one watcher per valid target and sets the flag;
`Stop` fails when not running (state unchanged) and otherwise clears
the flag — so the running flag is set by every `Start` that passes the
already-running test, including one failing with the empty task set,
and cleared only by a successful `Stop`. -/
theorem c8_amended :
    (∀ (lc : LogChecker) (env : OsEnv), lc.running = true →
        (lc.start env).1 = lc ∧
        (lc.start env).2.2 = some "process is already running") ∧
    (∀ (lc : LogChecker) (env : OsEnv), lc.running = false →
        countValid env lc.observed = 0 →
        (lc.start env).2.2 = some "empty task queue" ∧
        (lc.start env).1.running = true) ∧
    (∀ (lc : LogChecker) (env : OsEnv), lc.running = false →
        countValid env lc.observed ≠ 0 →
        (lc.start env).2.2 = none ∧
        (lc.start env).2.1 = countValid env lc.observed ∧
        (lc.start env).1.running = true) ∧
    (∀ lc : LogChecker, lc.running = false →
        lc.stop.1 = lc ∧ lc.stop.2 = some "process is already stopped") ∧
    (∀ lc : LogChecker, lc.running = true →
        lc.stop.1.running = false ∧ lc.stop.2 = none) := by
  refine ⟨?_, ?_, ?_, ?_, ?_⟩
  · intro lc env h
    constructor <;> simp [LogChecker.start, LogChecker.isWorking, h]
  · intro lc env h h0
    constructor <;> simp [LogChecker.start, LogChecker.isWorking, h, h0]
  · intro lc env h h0
    refine ⟨?_, ?_, ?_⟩ <;> simp [LogChecker.start, LogChecker.isWorking, h, h0]
  · intro lc h
    constructor <;> simp [LogChecker.stop, LogChecker.isWorking, h]
  · intro lc h
    constructor <;> simp [LogChecker.stop, LogChecker.isWorking, h]

/-- Witness for the C8 amended theorem at concrete supervisors. -/
theorem c8_amended_witness :
    ((lcRun.start envAll).1 = lcRun ∧
     (lcRun.start envAll).2.2 = some "process is already running") ∧
    ((lcEmptyObserved.start envAll).2.2 = some "empty task queue" ∧
     (lcEmptyObserved.start envAll).1.running = true) ∧
    ((lcOne.start envAll).2.2 = none ∧
     (lcOne.start envAll).2.1 = countValid envAll lcOne.observed ∧
     (lcOne.start envAll).1.running = true) ∧
    (lcEmptyObserved.stop.1 = lcEmptyObserved ∧
     lcEmptyObserved.stop.2 = some "process is already stopped") ∧
    (lcRun.stop.1.running = false ∧ lcRun.stop.2 = none) :=
  ⟨c8_amended.1 lcRun envAll rfl,
   c8_amended.2.1 lcEmptyObserved envAll rfl (by decide),
   c8_amended.2.2.1 lcOne envAll rfl (by decide),
   c8_amended.2.2.2.1 lcEmptyObserved rfl,
   c8_amended.2.2.2.2 lcRun rfl⟩

/-- Claim C9: the rotation grace wait is the 2-second `MoveWait`; on an
event whose mask contains `IN_ATTRIB`, if the path exists again after
the wait the task continues with a fresh watch and the cursor reset to
0 (the following check scans from the start of the file), and if the
path is still absent the watch task terminates — the step function
touches only this task's own state. -/
theorem c9_rotation :
    MoveWait = 2 ∧
    (∀ (f : File) (mask : Nat) (lines : List String) (e : Nat),
        mask &&& IN_ATTRIB ≠ 0 →
        watchStep f (WatchEvent.inotifyEvent mask) true lines e =
          some (File.check { f with pos := 0 } lines e)) ∧
    (∀ (f : File) (mask : Nat) (lines : List String) (e : Nat),
        mask &&& IN_ATTRIB ≠ 0 →
        watchStep f (WatchEvent.inotifyEvent mask) false lines e = none) := by
  refine ⟨rfl, ?_, ?_⟩ <;> intro f mask lines e h <;> simp [watchStep, IsMoved, h]

/-- Witness for the C9 theorem with the watcher mask used by the source. -/
theorem c9_rotation_witness :
    (watcherMask &&& IN_ATTRIB ≠ 0) ∧
    watchStep cfgB (WatchEvent.inotifyEvent watcherMask) true ["e"] 0 =
      some (File.check { cfgB with pos := 0 } ["e"] 0) ∧
    watchStep cfgB (WatchEvent.inotifyEvent watcherMask) false ["e"] 0 = none :=
  ⟨by decide,
   c9_rotation.2.1 cfgB watcherMask ["e"] 0 (by decide),
   c9_rotation.2.2 cfgB watcherMask ["e"] 0 (by decide)⟩

/-- Claim C10: an empty line is never counted and never sampled, even
when the pattern matches the empty string: the scanner step on an empty
line only advances the line counter, and prepending an empty line to a
file scanned from the start (with a pattern that matches "") changes
neither the match count nor the number of sampled message lines. -/
theorem c10_empty_lines (pos : Nat) (pat : String → Bool) (lines : List String)
    (s : ScanState) (hpat : pat "" = true) (h : lines.length + 1 < U64) :
    scanLine pos pat s "" = { s with clines := u64 (s.clines + 1) } ∧
    (scan 0 pat ("" :: lines)).counter = (scan 0 pat lines).counter ∧
    (scan 0 pat ("" :: lines)).msgLines.length = (scan 0 pat lines).msgLines.length := by
  have hM : matchedFmt 0 pat ("" :: lines) 0 = matchedFmt 0 pat lines 1 := by
    rw [matchedFmt, if_neg (by simp)]
  have hlen2 : (matchedFmt 0 pat lines 1).length = (matchedFmt 0 pat lines 0).length :=
    matchedFmt_zero_len pat lines 1 0
  have e1 : (scan 0 pat ("" :: lines)).counter = (matchedFmt 0 pat ("" :: lines) 0).length := by
    rw [scan_eq 0 pat ("" :: lines) (by simpa using h)]
  have e2 : (scan 0 pat lines).counter = (matchedFmt 0 pat lines 0).length := by
    rw [scan_eq 0 pat lines (by omega)]
  have m1 : (scan 0 pat ("" :: lines)).msgLines =
      (matchedFmt 0 pat lines 1).take (maxMsgLines + 1)
        ++ (if maxMsgLines + 1 < (matchedFmt 0 pat lines 1).length
            then ["..."] else []) := by
    rw [scan_eq 0 pat ("" :: lines) (by simpa using h), hM]
  have m2 : (scan 0 pat lines).msgLines =
      (matchedFmt 0 pat lines 0).take (maxMsgLines + 1)
        ++ (if maxMsgLines + 1 < (matchedFmt 0 pat lines 0).length
            then ["..."] else []) := by
    rw [scan_eq 0 pat lines (by omega)]
  refine ⟨?_, ?_, ?_⟩
  · simp only [scanLine]
    split
    · rw [if_neg (by decide)]
    · rfl
  · rw [e1, e2, hM, hlen2]
  · rw [m1, m2]
    simp only [List.length_append, List.length_take, apply_ite List.length]
    rw [hlen2]

/-- Witness for the C10 theorem with a pattern matching everything,
including the empty string. -/
theorem c10_empty_lines_witness :
    ((fun _ : String => true) "" = true ∧ (["a"] : List String).length + 1 < U64) ∧
    (scanLine 5 (fun _ : String => true) { clines := 7, counter := 3, msgLines := ["x"] } "" =
       { clines := u64 (7 + 1), counter := 3, msgLines := ["x"] } ∧
     (scan 0 (fun _ : String => true) ("" :: ["a"])).counter =
       (scan 0 (fun _ : String => true) ["a"]).counter ∧
     (scan 0 (fun _ : String => true) ("" :: ["a"])).msgLines.length =
       (scan 0 (fun _ : String => true) ["a"]).msgLines.length) :=
  ⟨⟨rfl, by decide⟩,
   c10_empty_lines 5 (fun _ : String => true) ["a"]
     { clines := 7, counter := 3, msgLines := ["x"] } rfl (by decide)⟩

end Logchecker
